import Mathlib

/-!
A verification development for the `trade_crawler` extraction-and-validation
pipeline.  The Python sources under `src/` are shallowly embedded: Python
floats are modelled by `ℚ`, Python's `Optional[...]` by `Option`, caught
exceptions by `Option`/skipping, and the SQLite store by an explicit record
of rows.  ASCII is assumed throughout for character-class operations
(tickers, timestamps and the JSON payloads involved are ASCII).
-/

namespace TradeCrawler

/-! ### Python string primitives (ASCII model) -/

/-- Python `str.isspace` / `\s` character class, ASCII fragment. -/
def pyIsSpace (c : Char) : Bool :=
  c = ' ' || c = '\t' || c = '\n' || c = '\x0d' || c = '\x0b' || c = '\x0c'

/-- Python `str.upper` on one ASCII character. -/
def pyUpperChar (c : Char) : Char :=
  if 97 ≤ c.toNat ∧ c.toNat ≤ 122 then Char.ofNat (c.toNat - 32) else c

/-- Python `str.lower` on one ASCII character. -/
def pyLowerChar (c : Char) : Char :=
  if 65 ≤ c.toNat ∧ c.toNat ≤ 90 then Char.ofNat (c.toNat + 32) else c

/-- Python `str.upper`. -/
def pyUpper (s : String) : String := ⟨s.data.map pyUpperChar⟩

/-- Python `str.lower`. -/
def pyLower (s : String) : String := ⟨s.data.map pyLowerChar⟩

/-- Python `str.strip()` with no argument: remove whitespace at both ends. -/
def pyStripChars (cs : List Char) : List Char :=
  ((cs.dropWhile pyIsSpace).reverse.dropWhile pyIsSpace).reverse

/-- Python `str.strip()` on `String`. -/
def pyStrip (s : String) : String := ⟨pyStripChars s.data⟩

/-- ASCII alphanumeric character (Python `str.isalnum` character class). -/
def pyIsAlnumChar (c : Char) : Bool :=
  ('0' ≤ c && c ≤ '9') || ('A' ≤ c && c ≤ 'Z') || ('a' ≤ c && c ≤ 'z')

/-- Python `str.isalnum`: every character alphanumeric AND at least one
character (`"".isalnum()` is `False` in Python). -/
def pyIsAlnum (s : String) : Bool :=
  s.data ≠ [] && s.data.all pyIsAlnumChar

/-- Python `str.replace(".", "")`: delete every occurrence of `'.'`. -/
def pyRemoveDots (s : String) : String := ⟨s.data.filter (fun c => c ≠ '.')⟩

/-! ### Data model: `src/src/models/trading_action.py` -/

/-- The `ActionType` enum. -/
inductive ActionType where
  | buy
  | sell
  | hold
  | unknown
deriving DecidableEq, Repr

/-- Python `ActionType.value` (the `str` payload of the enum member). -/
def ActionType.value : ActionType → String
  | .buy => "buy"
  | .sell => "sell"
  | .hold => "hold"
  | .unknown => "unknown"

/-- Python `ActionType(s)` lookup; a `ValueError` on an unknown string is mapped to
`UNKNOWN` by every caller in the repository, so the fallback is folded in. -/
def ActionType.ofString (s : String) : ActionType :=
  if s = "buy" then .buy
  else if s = "sell" then .sell
  else if s = "hold" then .hold
  else .unknown

/-- The `TradingAction` dataclass.  Fields are typed as annotated in the
source (`price: Optional[float]`, `quantity: Optional[int]`,
`confidence: float`), with `float` modelled by `ℚ`. -/
structure TradingAction where
  action_type : ActionType
  symbol : String
  price : Option ℚ := none
  quantity : Option ℤ := none
  confidence : ℚ := 0
  message_id : Option String := none
  raw_message : Option String := none
  extracted_at : Option String := none
  action_signal_time : Option String := none
deriving DecidableEq, Repr

/-- Python `TradingAction.is_valid`. -/
def TradingAction.is_valid (a : TradingAction) : Bool :=
  a.action_type ≠ ActionType.unknown
    && a.symbol ≠ ""
    && 1 ≤ a.symbol.length
    && (0 : ℚ) ≤ a.confidence
    && a.confidence ≤ (1 : ℚ)

/-- Python `TradingAction.is_executable(min_confidence)`. -/
def TradingAction.is_executable (a : TradingAction) (min_confidence : ℚ) : Bool :=
  a.is_valid
    && min_confidence ≤ a.confidence
    && (a.action_type = ActionType.buy ∨ a.action_type = ActionType.sell)

/-! ### Validator: `src/src/services/validator.py` -/

/-- The `ActionValidator` holds the single configured threshold. -/
structure ActionValidator where
  min_confidence : ℚ := mkRat 7 10

/-- Python `ActionValidator._is_valid_symbol`. -/
def ActionValidator.is_valid_symbol (_v : ActionValidator) (symbol : String) : Bool :=
  if symbol = "" ∨ symbol.length < 1 then false
  else if symbol.length > 10 then false
  else if ¬ pyIsAlnum (pyRemoveDots symbol) then false
  else true

/-- Python `ActionValidator.validate`. -/
def ActionValidator.validate (v : ActionValidator) (a : TradingAction) : Bool :=
  if ¬ a.is_valid then false
  else if a.confidence < v.min_confidence then false
  else if ¬ v.is_valid_symbol a.symbol then false
  else if (match a.price with | some p => decide (p ≤ 0) | none => false) then false
  else if (match a.quantity with | some q => decide (q ≤ 0) | none => false) then false
  else true

/-- Python `ActionValidator.filter` (the list comprehension over `validate`). -/
def ActionValidator.filterActions (v : ActionValidator) (actions : List TradingAction) :
    List TradingAction :=
  actions.filter (fun a => v.validate a)

/-- Python `ActionValidator.get_executable_actions`. -/
def ActionValidator.get_executable_actions (v : ActionValidator)
    (actions : List TradingAction) : List TradingAction :=
  actions.filter (fun a => a.is_executable v.min_confidence && v.validate a)

/-! ### Message model: `src/src/models/message.py` -/

/-- The `Message` dataclass. -/
structure Message where
  sender : String
  send_time : String
  message : String
  channel : Option String := none
  message_id : Option String := none
  platform : Option String := none
deriving DecidableEq, Repr

/-! ### A model of Python `json.loads`

`LLMExtractor._parse_response` calls `json.loads` on the (possibly
fence-stripped) response.  The JSON grammar is embedded below: objects,
arrays, strings with escapes, numbers (as `ℚ`), `true`/`false`/`null`.
Python's non-standard `NaN`/`Infinity` literals are not representable in
`ℚ` and are omitted: a response containing one (e.g. a `price` of
`Infinity`, which the program would accept into an action) fails to parse
in the model, an acknowledged boundary of the embedding.  Python floats
are modelled exactly as rationals. -/

inductive Json where
  | null
  | bool (b : Bool)
  | num (q : ℚ)
  | str (s : String)
  | arr (elems : List Json)
  | obj (members : List (String × Json))
deriving Repr

/-- Whitespace as `json.decoder` skips it (`[ \t\n\r]`): narrower than
Python's `str.strip` class, which also removes `\x0b`/`\x0c`. -/
def jsonWsChar (c : Char) : Bool :=
  c = ' ' || c = '\t' || c = '\n' || c = '\x0d'

/-- Skip leading JSON whitespace. -/
def dropJsonWs (cs : List Char) : List Char := cs.dropWhile jsonWsChar

/-- Accumulate a maximal run of decimal digits: value, digit count, rest. -/
def parseDigitsAcc : List Char → Nat → Nat → Nat × Nat × List Char
  | c :: rest, acc, count =>
    if c.isDigit then parseDigitsAcc rest (acc * 10 + (c.toNat - 48)) (count + 1)
    else (acc, count, c :: rest)
  | [], acc, count => (acc, count, [])

/-- Assemble a decimal literal into `ℚ`: sign, integer part, fractional
digits with their count, and a signed decimal exponent.  All arithmetic is
on `Nat`/`Int`, normalized by a single `mkRat`. -/
def decimalToRat (neg : Bool) (ipart f k : Nat) (eneg : Bool) (e : Nat) : ℚ :=
  let mantissa : Nat := ipart * 10 ^ k + f
  let m : Int := if neg then -(mantissa : Int) else (mantissa : Int)
  if eneg then mkRat m (10 ^ k * 10 ^ e)
  else mkRat (m * (10 : Int) ^ e) (10 ^ k)

/-- Optional fraction `(\.\d+)?` after the integer part, as digits and digit
count; a `'.'` not followed by a digit is left unconsumed (the regex group
simply does not match). -/
def parseJsonFrac : List Char → Nat × Nat × List Char
  | '.' :: c :: rest =>
    if c.isDigit then parseDigitsAcc (c :: rest) 0 0
    else (0, 0, '.' :: c :: rest)
  | cs => (0, 0, cs)

/-- Optional exponent `([eE][-+]?\d+)?` as a signed magnitude; an `'e'` not
followed by digits is left unconsumed. -/
def parseJsonExp : List Char → Bool × Nat × List Char
  | e :: rest =>
    if e = 'e' ∨ e = 'E' then
      let (eneg, rest1) := match rest with
        | '-' :: r => (true, r)
        | '+' :: r => (false, r)
        | r => (false, r)
      let (n, k, rest2) := parseDigitsAcc rest1 0 0
      if k = 0 then (false, 0, e :: rest)
      else (eneg, n, rest2)
    else (false, 0, e :: rest)
  | [] => (false, 0, [])

/-- JSON number: `-?(0|[1-9]\d*)(\.\d+)?([eE][-+]?\d+)?`. -/
def parseJsonNumber (cs : List Char) : Option (Json × List Char) :=
  let (neg, cs1) := match cs with
    | '-' :: r => (true, r)
    | r => (false, r)
  match cs1 with
  | c :: rest =>
    if c = '0' then
      let (f, k, rest2) := parseJsonFrac rest
      let (eneg, e, rest3) := parseJsonExp rest2
      some (Json.num (decimalToRat neg 0 f k eneg e), rest3)
    else if c.isDigit then
      let (n, _, rest1) := parseDigitsAcc rest (c.toNat - 48) 1
      let (f, k, rest2) := parseJsonFrac rest1
      let (eneg, e, rest3) := parseJsonExp rest2
      some (Json.num (decimalToRat neg n f k eneg e), rest3)
    else none
  | [] => none

/-- Hexadecimal digit value. -/
def hexVal (c : Char) : Option Nat :=
  if '0' ≤ c ∧ c ≤ '9' then some (c.toNat - 48)
  else if 'a' ≤ c ∧ c ≤ 'f' then some (c.toNat - 87)
  else if 'A' ≤ c ∧ c ≤ 'F' then some (c.toNat - 55)
  else none

/-- JSON string body (after the opening quote): returns the decoded
characters and the remainder after the closing quote.  Unescaped control
characters are rejected (Python's strict mode). -/
def parseJsonStringBody : Nat → List Char → Option (List Char × List Char)
  | 0, _ => none
  | _ + 1, [] => none
  | fuel + 1, c :: rest =>
    if c = '"' then some ([], rest)
    else if c = '\\' then
      match rest with
      | [] => none
      | e :: rest2 =>
        if e = 'u' then
          match rest2 with
          | h1 :: h2 :: h3 :: h4 :: rest3 =>
            match hexVal h1, hexVal h2, hexVal h3, hexVal h4 with
            | some a, some b, some c2, some d =>
              (parseJsonStringBody fuel rest3).map
                (fun p => (Char.ofNat (((a * 16 + b) * 16 + c2) * 16 + d) :: p.1, p.2))
            | _, _, _, _ => none
          | _ => none
        else
          match
            (if e = '"' then some '"'
             else if e = '\\' then some '\\'
             else if e = '/' then some '/'
             else if e = 'b' then some '\x08'
             else if e = 'f' then some '\x0c'
             else if e = 'n' then some '\n'
             else if e = 'r' then some '\x0d'
             else if e = 't' then some '\t'
             else none) with
          | some d => (parseJsonStringBody fuel rest2).map (fun p => (d :: p.1, p.2))
          | none => none
    else if c.toNat < 32 then none
    else (parseJsonStringBody fuel rest).map (fun p => (c :: p.1, p.2))

/-- Parsing mode for the JSON parser.  The parser is written as a single
structural recursion on fuel (rather than mutually recursive functions) so
that concrete parses reduce inside the kernel. -/
inductive PMode where
  | valMode
  | arrBodyMode
  | arrElemsMode (acc : List Json)
  | objBodyMode
  | objMembersMode (acc : List (String × Json))

/-- The JSON parser: values, array bodies (after `'['`), array element
lists, object bodies (after `'{'`) and member lists, selected by mode. -/
def parseJsonCore : Nat → PMode → List Char → Option (Json × List Char)
  | 0, _, _ => none
  | fuel + 1, .valMode, cs =>
    match dropJsonWs cs with
    | [] => none
    | c :: rest =>
      if c = '{' then parseJsonCore fuel .objBodyMode rest
      else if c = '[' then parseJsonCore fuel .arrBodyMode rest
      else if c = '"' then
        (parseJsonStringBody (rest.length + 1) rest).map
          (fun p => (Json.str ⟨p.1⟩, p.2))
      else if c = 't' then
        if rest.take 3 = ['r', 'u', 'e'] then some (Json.bool true, rest.drop 3) else none
      else if c = 'f' then
        if rest.take 4 = ['a', 'l', 's', 'e'] then some (Json.bool false, rest.drop 4) else none
      else if c = 'n' then
        if rest.take 3 = ['u', 'l', 'l'] then some (Json.null, rest.drop 3) else none
      else parseJsonNumber (c :: rest)
  | fuel + 1, .arrBodyMode, cs =>
    match dropJsonWs cs with
    | ']' :: rest => some (Json.arr [], rest)
    | cs2 => parseJsonCore fuel (.arrElemsMode []) cs2
  | fuel + 1, .arrElemsMode acc, cs =>
    match parseJsonCore fuel .valMode cs with
    | none => none
    | some (v, rest) =>
      match dropJsonWs rest with
      | ',' :: rest2 => parseJsonCore fuel (.arrElemsMode (acc ++ [v])) rest2
      | ']' :: rest2 => some (Json.arr (acc ++ [v]), rest2)
      | _ => none
  | fuel + 1, .objBodyMode, cs =>
    match dropJsonWs cs with
    | '}' :: rest => some (Json.obj [], rest)
    | cs2 => parseJsonCore fuel (.objMembersMode []) cs2
  | fuel + 1, .objMembersMode acc, cs =>
    match dropJsonWs cs with
    | '"' :: rest =>
      match parseJsonStringBody (rest.length + 1) rest with
      | none => none
      | some (key, rest1) =>
        match dropJsonWs rest1 with
        | ':' :: rest2 =>
          match parseJsonCore fuel .valMode rest2 with
          | none => none
          | some (v, rest3) =>
            match dropJsonWs rest3 with
            | ',' :: rest4 => parseJsonCore fuel (.objMembersMode (acc ++ [(⟨key⟩, v)])) rest4
            | '}' :: rest4 => some (Json.obj (acc ++ [(⟨key⟩, v)]), rest4)
            | _ => none
        | _ => none
    | _ => none

/-- JSON value parser (leading whitespace skipped), fuel-indexed. -/
def parseJsonValue (fuel : Nat) (cs : List Char) : Option (Json × List Char) :=
  parseJsonCore fuel .valMode cs

/-- Python `json.loads`: parse a complete document, allowing surrounding
whitespace only; anything trailing is `Extra data` (a failure). -/
def pyJsonLoads (s : String) : Option Json :=
  match parseJsonValue (4 * s.data.length + 16) s.data with
  | some (v, rest) => if dropJsonWs rest = [] then some v else none
  | none => none

/-! ### Extraction Client: `src/src/extractors/llm_extractor.py` -/

/-- Python `dict` lookup on the members of a JSON object: duplicate keys
resolve to the last occurrence, as in `dict` construction. -/
def jsonGet (members : List (String × Json)) (key : String) : Option Json :=
  (members.reverse.find? (fun kv => kv.1 = key)).map (fun kv => kv.2)

/-- Python `float(<string>)`: optional sign and a decimal literal with
optional fraction and exponent, surrounding whitespace ignored.  The
`inf`/`nan` spellings Python also accepts are not representable in `ℚ`
and are omitted. -/
def pyFloatOfString (s : String) : Option ℚ :=
  let cs := pyStripChars s.data
  let (neg, cs1) := match cs with
    | '-' :: r => (true, r)
    | '+' :: r => (false, r)
    | r => (false, r)
  let (i, icount, r1) := parseDigitsAcc cs1 0 0
  let (f, fcount, r2) := match r1 with
    | '.' :: r => parseDigitsAcc r 0 0
    | r => (0, 0, r)
  if icount + fcount = 0 then none
  else
    match r2 with
    | [] => some (decimalToRat neg i f fcount false 0)
    | e :: r3 =>
      if e = 'e' ∨ e = 'E' then
        let (eneg, r4) := match r3 with
          | '-' :: r => (true, r)
          | '+' :: r => (false, r)
          | r => (false, r)
        let (n, k, r5) := parseDigitsAcc r4 0 0
        if k = 0 ∨ r5 ≠ [] then none
        else some (decimalToRat neg i f fcount eneg n)
      else none

/-- Python `float(x)` on a JSON value: numbers and booleans coerce, numeric strings
parse, everything else raises (`none`). -/
def pyFloatOfJson : Json → Option ℚ
  | .num q => some q
  | .bool b => some (if b then 1 else 0)
  | .str s => pyFloatOfString s
  | _ => none

/-- Python `action_data.get(key, dflt)` followed by a string method: an absent key
yields the default, a present string yields itself, and a present
non-string raises `AttributeError` when `.lower()`/`.upper()` is applied
(`none`, caught per item). -/
def asStrOr (v : Option Json) (dflt : String) : Option String :=
  match v with
  | none => some dflt
  | some (.str s) => some s
  | some _ => none

/-- One iteration of the conversion loop of `_parse_response` (lines
169-195): builds a `TradingAction` from one parsed element, `none` when the
per-item `try` block raises or the element is skipped via `continue`.
Non-numeric `price`/`quantity` values, which Python would store verbatim in
the untyped dataclass, are not representable in the typed model and map to
`none` fields. -/
def convertItem (raw now : String) (item : Json) : Option TradingAction :=
  match item with
  | .obj members =>
    match asStrOr (jsonGet members "action_type") "unknown" with
    | none => none
    | some ats =>
      let atype := ActionType.ofString (pyLower ats)
      match asStrOr (jsonGet members "symbol") "" with
      | none => none
      | some symRaw =>
        let symbol := pyStrip (pyUpper symRaw)
        if symbol = "" then none
        else
          match (match jsonGet members "confidence" with
                 | none => some (mkRat 1 2)
                 | some v => pyFloatOfJson v) with
          | none => none
          | some conf =>
            some { action_type := atype
                   symbol := symbol
                   price := (match jsonGet members "price" with
                             | some (.num q) => some q
                             | _ => none)
                   quantity := (match jsonGet members "quantity" with
                                | some (.num q) => if q.den = 1 then some q.num else none
                                | _ => none)
                   confidence := conf
                   raw_message := some raw
                   extracted_at := some now }
  | _ => none

/-- The `for action_data in actions_data` loop: convert each element,
append it when `is_valid()` holds, skip it when its conversion raised. -/
def actionsLoop (raw now : String) : List Json → List TradingAction
  | [] => []
  | d :: rest =>
    match convertItem raw now d with
    | some a => if a.is_valid then a :: actionsLoop raw now rest
                else actionsLoop raw now rest
    | none => actionsLoop raw now rest

/-- The shape dispatch of `_parse_response` (lines 154-166): a dict with an
`"actions"` key is unwrapped; a dict that looks like a single action is
wrapped in a one-element list; a list is used directly; anything else has
zero elements.  When `data["actions"]` is not a list, iterating it either
yields only non-dict items (strings/keys, each failing conversion) or raises
`TypeError` into the outer handler with no actions accumulated, so it
contributes no elements. -/
def itemsOfData : Json → List Json
  | .obj members =>
    if (jsonGet members "actions").isSome then
      match jsonGet members "actions" with
      | some (.arr xs) => xs
      | _ => []
    else if (jsonGet members "action_type").isSome ∨ (jsonGet members "symbol").isSome then
      [.obj members]
    else []
  | .arr xs => xs
  | _ => []

/-- Python `text.split("\n")`: split at every newline, keeping empty
pieces; the empty string yields `[""]`. -/
def splitOnNl : List Char → List (List Char)
  | [] => [[]]
  | c :: rest =>
    if c = '\n' then [] :: splitOnNl rest
    else
      match splitOnNl rest with
      | g :: gs => (c :: g) :: gs
      | [] => [[c]]

/-- Python `"\n".join(lines)`. -/
def joinNl : List (List Char) → List Char
  | [] => []
  | [g] => g
  | g :: gs => g ++ '\n' :: joinNl gs

/-- Python `text.startswith` for a three-backtick fence prefix (the
backtick is written via its code-point escape). -/
def startsWithFence : List Char → Bool
  | c1 :: c2 :: c3 :: _ => c1 = '\x60' && c2 = '\x60' && c3 = '\x60'
  | _ => false

/-- The markdown code-fence removal of `_parse_response` (lines 147-149),
applied to the already-stripped text: when the text starts with a fence
marker and has more than two lines, keep only the middle lines. -/
def stripCodeFence (t : List Char) : List Char :=
  if startsWithFence t then
    let lines := splitOnNl t
    if lines.length > 2 then joinNl (lines.drop 1).dropLast else t
  else t

/-- Python `LLMExtractor._parse_response`: strip, remove a code fence, parse JSON
(a decode failure is caught, yielding `[]`), dispatch on the shape, and run
the conversion loop.  `raw` is `message.message`; `now` stands for
`datetime.now().isoformat()`. -/
def parse_response (response_text : String) (raw now : String) : List TradingAction :=
  let t := pyStripChars response_text.data
  let t2 := stripCodeFence t
  match pyJsonLoads ⟨t2⟩ with
  | none => []
  | some data => actionsLoop raw now (itemsOfData data)

/-- Python `LLMExtractor.extract`: the provider round-trip either raises (modelled
by `none`, caught at lines 87-89 yielding `[]`) or returns response text
handed to `_parse_response`. -/
def extract (llmResponse : Option String) (message : Message) (now : String) :
    List TradingAction :=
  match llmResponse with
  | none => []
  | some r => parse_response r message.message now

/-! ### Serialisation: `TradingAction.to_dict` / `from_dict` -/

/-- The dictionary shape produced by `to_dict` and consumed by `from_dict`.
A key that is absent and a key present with value `None` are
indistinguishable to `dict.get`, so both are modelled by `none`. -/
structure ActionDict where
  action_type : Option String := none
  symbol : Option String := none
  price : Option ℚ := none
  quantity : Option ℤ := none
  confidence : Option ℚ := none
  message_id : Option String := none
  raw_message : Option String := none
  extracted_at : Option String := none
  action_signal_time : Option String := none
deriving DecidableEq, Repr

/-- Python `TradingAction.to_dict`: every key is emitted; `symbol` is normalised
to upper case. -/
def TradingAction.to_dict (a : TradingAction) : ActionDict :=
  { action_type := some a.action_type.value
    symbol := some (pyUpper a.symbol)
    price := a.price
    quantity := a.quantity
    confidence := some a.confidence
    message_id := a.message_id
    raw_message := a.raw_message
    extracted_at := a.extracted_at
    action_signal_time := a.action_signal_time }

/-- Python `TradingAction.from_dict`: defaults `"unknown"`, `""` and `0.0`;
unknown action-type strings map to `UNKNOWN` (the caught `ValueError`). -/
def TradingAction.from_dict (d : ActionDict) : TradingAction :=
  { action_type := ActionType.ofString (pyLower (d.action_type.getD "unknown"))
    symbol := pyUpper (d.symbol.getD "")
    price := d.price
    quantity := d.quantity
    confidence := d.confidence.getD 0
    message_id := d.message_id
    raw_message := d.raw_message
    extracted_at := d.extracted_at
    action_signal_time := d.action_signal_time }

/-! ### Persistence Store: `src/src/storage/database.py`

The SQLite store is modelled by explicit row lists with auto-increment
counters.  `AUTOINCREMENT` ids start at 1. -/

/-- A row of the `messages` table. -/
structure MessageRow where
  id : Nat
  sender : String
  send_time : String
  message : String
  channel : Option String
  message_id : Option String
  platform : Option String
deriving DecidableEq, Repr

/-- A row of the `trading_actions` table. -/
structure ActionRow where
  id : Nat
  message_id : Option Nat
  action_type : String
  symbol : String
  price : Option ℚ
  quantity : Option ℤ
  confidence : ℚ
  raw_message : Option String
  extracted_at : String
  action_signal_time : Option String
deriving DecidableEq, Repr

/-- The database state. -/
structure Database where
  messages : List MessageRow := []
  actions : List ActionRow := []
  nextMessageId : Nat := 1
  nextActionId : Nat := 1
deriving DecidableEq, Repr

/-- Python `Database.save_message`.  The `UNIQUE(platform, message_id) ON CONFLICT
IGNORE` constraint drops the insert when both fields are non-NULL and an
equal pair already exists (SQL `NULL`s never compare equal); the ignored
insert leaves `cursor.lastrowid` at its initial `None` on the fresh
cursor. -/
def Database.save_message (db : Database) (m : Message) : Database × Option Nat :=
  if m.platform.isSome && m.message_id.isSome &&
      db.messages.any (fun r => r.platform == m.platform && r.message_id == m.message_id) then
    (db, none)
  else
    ({ db with
        messages := db.messages ++
          [⟨db.nextMessageId, m.sender, m.send_time, m.message,
            m.channel, m.message_id, m.platform⟩]
        nextMessageId := db.nextMessageId + 1 },
     some db.nextMessageId)

/-- Python `Database.save_trading_action`.  There `extracted_at = action.extracted_at or
datetime.now().isoformat()` uses Python truthiness, so an empty string is
also replaced by `now`.  The `CHECK (confidence >= 0.0 AND confidence <=
1.0)` table constraint makes the insert raise `IntegrityError` (`none`)
when violated; the error is not caught by any caller in the pipeline. -/
def Database.save_trading_action (db : Database) (a : TradingAction)
    (message_db_id : Option Nat) (now : String) : Option (Database × Nat) :=
  let extracted_at := match a.extracted_at with
    | some s => if s = "" then now else s
    | none => now
  if (0 : ℚ) ≤ a.confidence ∧ a.confidence ≤ (1 : ℚ) then
    some ({ db with
             actions := db.actions ++
               [⟨db.nextActionId, message_db_id, a.action_type.value, a.symbol,
                 a.price, a.quantity, a.confidence, a.raw_message,
                 extracted_at, a.action_signal_time⟩]
             nextActionId := db.nextActionId + 1 },
          db.nextActionId)
  else none

/-- Distinct elements in first-occurrence order (`GROUP BY` keys). -/
def distinctAux : List String → List String → List String
  | [], _ => []
  | x :: xs, seen =>
    if seen.contains x then distinctAux xs seen
    else x :: distinctAux xs (x :: seen)

/-- SQL `SELECT key, COUNT(*) ... GROUP BY key` as an association list. -/
def groupCounts (xs : List String) : List (String × Nat) :=
  (distinctAux xs []).map (fun t => (t, xs.count t))

/-- Stable insertion for a descending sort by count (`ORDER BY count DESC`). -/
def insertByCountDesc (p : String × Nat) : List (String × Nat) → List (String × Nat)
  | [] => [p]
  | q :: rest => if p.2 < q.2 then q :: insertByCountDesc p rest else p :: q :: rest

/-- Stable descending sort by count. -/
def sortByCountDesc : List (String × Nat) → List (String × Nat)
  | [] => []
  | p :: rest => insertByCountDesc p (sortByCountDesc rest)

/-- Rational addition performed on numerators/denominators (kept away from
the field structure so that concrete values reduce by `decide`). -/
def ratAdd (a b : ℚ) : ℚ :=
  mkRat (a.num * (b.den : Int) + b.num * (a.den : Int)) (a.den * b.den)

/-- Sum of a list of rationals. -/
def ratSum : List ℚ → ℚ
  | [] => mkRat 0 1
  | q :: rest => ratAdd q (ratSum rest)

/-- Mean of a non-empty list (`AVG(confidence)`). -/
def ratMean (qs : List ℚ) : ℚ :=
  let s := ratSum qs
  mkRat s.num (s.den * qs.length)

/-- Round `a / b` (with `b ≠ 0`) to the nearest integer, ties to even
(Python's `round`). -/
def roundHalfEven (a : Int) (b : Nat) : Int :=
  let n := a.fdiv b
  let r := a - n * b
  if 2 * r < (b : Int) then n
  else if (b : Int) < 2 * r then n + 1
  else if n % 2 = 0 then n else n + 1

/-- Python `round(x, 3)` on the exact rational value. -/
def pyRound3 (q : ℚ) : ℚ := mkRat (roundHalfEven (q.num * 1000) q.den) 1000

/-- The record returned by `get_action_statistics`.  `by_type` and
`top_symbols` are Python dicts keyed by the distinct values present. -/
structure ActionStatistics where
  total_actions : Nat
  by_type : List (String × Nat)
  average_confidence : ℚ
  top_symbols : List (String × Nat)
deriving DecidableEq, Repr

/-- Python `Database.get_action_statistics`: recomputed from the rows on every
call; the SQL `AVG` of zero rows is `NULL`, turned into `0.0` by
`or 0.0`. -/
def Database.get_action_statistics (db : Database) : ActionStatistics :=
  let avg := if db.actions.isEmpty then mkRat 0 1
             else ratMean (db.actions.map (fun r => r.confidence))
  { total_actions := db.actions.length
    by_type := groupCounts (db.actions.map (fun r => r.action_type))
    average_confidence := pyRound3 avg
    top_symbols := (sortByCountDesc (groupCounts (db.actions.map (fun r => r.symbol)))).take 10 }

/-! ### Pipeline Orchestrator: `src/src/services/message_processor.py` -/

/-- Observable side effects of `process_message`, in execution order. -/
inductive Event where
  | savedMessage (dbId : Option Nat)
  | savedAction (a : TradingAction) (messageDbId : Option Nat) (dbId : Nat)
  | callbackFired (a : TradingAction)
deriving DecidableEq, Repr

/-- Result of one `process_message` call: the returned list, the new store
state, and the event trace. -/
structure ProcResult where
  actions : List TradingAction
  db : Database
  events : List Event
deriving DecidableEq, Repr

/-- The save-and-callback loop of `process_message` (lines 63-67).  A
`none` from `save_trading_action` is the uncaught `IntegrityError`; that
branch is proved unreachable below, because validated actions satisfy the
confidence `CHECK`. -/
def saveActionsLoop (hasCallback : Bool) (now : String) (mid : Option Nat) :
    Database → List TradingAction → Option (Database × List Event)
  | db, [] => some (db, [])
  | db, a :: rest =>
    match db.save_trading_action a mid now with
    | none => none
    | some (db1, aid) =>
      match saveActionsLoop hasCallback now mid db1 rest with
      | none => none
      | some (db2, evs) =>
        some (db2, Event.savedAction a mid aid ::
                     ((if hasCallback then [Event.callbackFired a] else []) ++ evs))

/-- Python `MessageProcessor.process_message`: extract, filter, save the message
(always), save each accepted action linked to the returned message id,
firing the optional callback after each save.  `llm` stands for the
provider round-trip (`none` = the call raised); `hasCallback` records
whether `set_action_callback` installed a callback. -/
def process_message (llm : Message → Option String) (validator : ActionValidator)
    (hasCallback : Bool) (db : Database) (message : Message) (now : String) :
    Option ProcResult :=
  let raw_actions := extract (llm message) message now
  let valid_actions := validator.filterActions raw_actions
  let saved := db.save_message message
  match saveActionsLoop hasCallback now saved.2 saved.1 valid_actions with
  | none => none
  | some (db2, evs) => some ⟨valid_actions, db2, Event.savedMessage saved.2 :: evs⟩

/-! ### `Message.parse_time`: a model of `datetime.strptime` for the four
formats tried by the source.  `_strptime` compiles each directive to a
regex alternation (two-digit alternatives first), requires the whole string
to be consumed, and then the `datetime` constructor validates the calendar
fields; a failure at either stage is a `ValueError`, caught by `parse_time`
which then tries the next format. -/

/-- A `datetime` value (the pipeline never uses sub-second fields). -/
structure PyDatetime where
  year : Nat
  month : Nat
  day : Nat
  hour : Nat
  minute : Nat
  second : Nat
deriving DecidableEq, Repr

/-- Gregorian leap year. -/
def isLeapYear (y : Nat) : Bool :=
  y % 4 = 0 && (y % 100 ≠ 0 || y % 400 = 0)

/-- Length of a month. -/
def daysInMonth (y m : Nat) : Nat :=
  if m = 2 then (if isLeapYear y then 29 else 28)
  else if m = 4 ∨ m = 6 ∨ m = 9 ∨ m = 11 then 30
  else 31

/-- The `datetime(...)` constructor's range validation (`MINYEAR = 1`,
`MAXYEAR = 9999`, day checked against the month's length, seconds up to
59 even though the `%S` regex admits leap seconds). -/
def mkPyDatetime (y mo d h mi s : Nat) : Option PyDatetime :=
  if 1 ≤ y ∧ y ≤ 9999 ∧ 1 ≤ mo ∧ mo ≤ 12 ∧ 1 ≤ d ∧ d ≤ daysInMonth y mo
      ∧ h ≤ 23 ∧ mi ≤ 59 ∧ s ≤ 59 then
    some ⟨y, mo, d, h, mi, s⟩
  else none

/-- Decimal value of a digit character. -/
def digitNat (c : Char) : Nat := c.toNat - 48

/-- A one-or-two-digit numeric directive.  The generated regex lists the
two-digit alternatives first, so two digits are consumed exactly when both
are digits and the two-digit value is admissible; otherwise one admissible
digit. -/
def parseNumField (valid : Nat → Bool) : List Char → Option (Nat × List Char)
  | c1 :: c2 :: rest =>
    if c1.isDigit then
      if c2.isDigit && valid (digitNat c1 * 10 + digitNat c2) then
        some (digitNat c1 * 10 + digitNat c2, rest)
      else if valid (digitNat c1) then some (digitNat c1, c2 :: rest)
      else none
    else none
  | [c1] => if c1.isDigit && valid (digitNat c1) then some (digitNat c1, []) else none
  | [] => none

/-- Directive `%Y`: exactly four digits (`\d\d\d\d`). -/
def parseYear4 : List Char → Option (Nat × List Char)
  | a :: b :: c :: d :: rest =>
    if a.isDigit && b.isDigit && c.isDigit && d.isDigit then
      some (((digitNat a * 10 + digitNat b) * 10 + digitNat c) * 10 + digitNat d, rest)
    else none
  | _ => none

/-- A literal format character. -/
def expectChar (c : Char) : List Char → Option (List Char)
  | d :: rest => if d = c then some rest else none
  | _ => none

/-- Whitespace in the format compiles to `\s+`: at least one whitespace
character, consumed greedily (no later directive can match whitespace). -/
def parseWs1 : List Char → Option (List Char)
  | c :: rest => if pyIsSpace c then some (rest.dropWhile pyIsSpace) else none
  | [] => none

/-- Directive `%p`: `AM`/`PM`, case-insensitive (the whole pattern is compiled with
`IGNORECASE`).  Returns `true` for PM. -/
def parseAmPm : List Char → Option (Bool × List Char)
  | a :: m :: rest =>
    if pyLowerChar m = 'm' then
      if pyLowerChar a = 'a' then some (false, rest)
      else if pyLowerChar a = 'p' then some (true, rest)
      else none
    else none
  | _ => none

/-- Convert a 12-hour clock reading with an AM/PM flag to a 24-hour hour. -/
def adjustHour12 (h : Nat) (pm : Bool) : Nat :=
  if pm then (if h = 12 then 12 else h + 12)
  else (if h = 12 then 0 else h)

/-- Format `"%m/%d/%Y %I:%M %p"`, requiring the whole string to be consumed. -/
def strptimeFmt1 (cs : List Char) : Option PyDatetime := do
  let (mo, r1) ← parseNumField (fun n => 1 ≤ n && n ≤ 12) cs
  let r2 ← expectChar '/' r1
  let (d, r3) ← parseNumField (fun n => 1 ≤ n && n ≤ 31) r2
  let r4 ← expectChar '/' r3
  let (y, r5) ← parseYear4 r4
  let r6 ← parseWs1 r5
  let (h12, r7) ← parseNumField (fun n => 1 ≤ n && n ≤ 12) r6
  let r8 ← expectChar ':' r7
  let (mi, r9) ← parseNumField (fun n => n ≤ 59) r8
  let r10 ← parseWs1 r9
  let (pm, r11) ← parseAmPm r10
  if r11 = [] then mkPyDatetime y mo d (adjustHour12 h12 pm) mi 0 else none

/-- Format `"%m/%d/%Y %I:%M:%S %p"`. -/
def strptimeFmt2 (cs : List Char) : Option PyDatetime := do
  let (mo, r1) ← parseNumField (fun n => 1 ≤ n && n ≤ 12) cs
  let r2 ← expectChar '/' r1
  let (d, r3) ← parseNumField (fun n => 1 ≤ n && n ≤ 31) r2
  let r4 ← expectChar '/' r3
  let (y, r5) ← parseYear4 r4
  let r6 ← parseWs1 r5
  let (h12, r7) ← parseNumField (fun n => 1 ≤ n && n ≤ 12) r6
  let r8 ← expectChar ':' r7
  let (mi, r9) ← parseNumField (fun n => n ≤ 59) r8
  let r10 ← expectChar ':' r9
  let (s, r11) ← parseNumField (fun n => n ≤ 61) r10
  let r12 ← parseWs1 r11
  let (pm, r13) ← parseAmPm r12
  if r13 = [] then mkPyDatetime y mo d (adjustHour12 h12 pm) mi s else none

/-- Format `"%Y-%m-%d %H:%M:%S"`. -/
def strptimeFmt3 (cs : List Char) : Option PyDatetime := do
  let (y, r1) ← parseYear4 cs
  let r2 ← expectChar '-' r1
  let (mo, r3) ← parseNumField (fun n => 1 ≤ n && n ≤ 12) r2
  let r4 ← expectChar '-' r3
  let (d, r5) ← parseNumField (fun n => 1 ≤ n && n ≤ 31) r4
  let r6 ← parseWs1 r5
  let (h, r7) ← parseNumField (fun n => n ≤ 23) r6
  let r8 ← expectChar ':' r7
  let (mi, r9) ← parseNumField (fun n => n ≤ 59) r8
  let r10 ← expectChar ':' r9
  let (s, r11) ← parseNumField (fun n => n ≤ 61) r10
  if r11 = [] then mkPyDatetime y mo d h mi s else none

/-- Format `"%Y-%m-%d %H:%M"`. -/
def strptimeFmt4 (cs : List Char) : Option PyDatetime := do
  let (y, r1) ← parseYear4 cs
  let r2 ← expectChar '-' r1
  let (mo, r3) ← parseNumField (fun n => 1 ≤ n && n ≤ 12) r2
  let r4 ← expectChar '-' r3
  let (d, r5) ← parseNumField (fun n => 1 ≤ n && n ≤ 31) r4
  let r6 ← parseWs1 r5
  let (h, r7) ← parseNumField (fun n => n ≤ 23) r6
  let r8 ← expectChar ':' r7
  let (mi, r9) ← parseNumField (fun n => n ≤ 59) r8
  if r9 = [] then mkPyDatetime y mo d h mi 0 else none

/-- Python `Message.parse_time`: try the four formats in order; every
`ValueError` is caught, so a string matching none of them yields `None`. -/
def Message.parse_time (m : Message) : Option PyDatetime :=
  match strptimeFmt1 m.send_time.data with
  | some d => some d
  | none =>
    match strptimeFmt2 m.send_time.data with
    | some d => some d
    | none =>
      match strptimeFmt3 m.send_time.data with
      | some d => some d
      | none => strptimeFmt4 m.send_time.data

/-! ### The runtime-faithful extraction layer

The typed `TradingAction` above follows the dataclass annotations
(`price: Optional[float]`, `quantity: Optional[int]`).  At runtime,
however, Python stores whatever JSON value the model returned for `price`
and `quantity` verbatim (`action_data.get("price")`, llm_extractor.py
line 184), and `ActionValidator.validate` then evaluates
`action.price <= 0` on it, which raises `TypeError` for a string, list or
dict value — an exception nothing in `filter` or `process_message`
catches.  The layer below embeds that behaviour exactly: candidate
records keep the verbatim JSON values, validation is `Except`-valued, and
the orchestrator propagates the exception before any save.  Projection
lemmas relate this layer to the typed one. -/

/-- A trading-action candidate as the extractor really builds it:
`price` and `quantity` hold the verbatim JSON values (`none` covers both
an absent key and a JSON `null`, which `dict.get` conflates into `None`). -/
structure PyTradingAction where
  action_type : ActionType
  symbol : String
  price : Option Json := none
  quantity : Option Json := none
  confidence : ℚ := 0
  message_id : Option String := none
  raw_message : Option String := none
  extracted_at : Option String := none
  action_signal_time : Option String := none
deriving Repr

/-- Python `TradingAction.is_valid` on a runtime candidate: it reads only
the kind, symbol and confidence, never the price or quantity. -/
def PyTradingAction.is_valid (a : PyTradingAction) : Bool :=
  a.action_type ≠ ActionType.unknown
    && a.symbol ≠ ""
    && 1 ≤ a.symbol.length
    && (0 : ℚ) ≤ a.confidence
    && a.confidence ≤ (1 : ℚ)

/-- One iteration of the conversion loop of `_parse_response` (lines
169-195), keeping the verbatim `price`/`quantity` values. -/
def convertItemPy (raw now : String) (item : Json) : Option PyTradingAction :=
  match item with
  | .obj members =>
    match asStrOr (jsonGet members "action_type") "unknown" with
    | none => none
    | some ats =>
      let atype := ActionType.ofString (pyLower ats)
      match asStrOr (jsonGet members "symbol") "" with
      | none => none
      | some symRaw =>
        let symbol := pyStrip (pyUpper symRaw)
        if symbol = "" then none
        else
          match (match jsonGet members "confidence" with
                 | none => some (mkRat 1 2)
                 | some v => pyFloatOfJson v) with
          | none => none
          | some conf =>
            some { action_type := atype
                   symbol := symbol
                   price := (match jsonGet members "price" with
                             | none => none
                             | some Json.null => none
                             | some v => some v)
                   quantity := (match jsonGet members "quantity" with
                                | none => none
                                | some Json.null => none
                                | some v => some v)
                   confidence := conf
                   raw_message := some raw
                   extracted_at := some now }
  | _ => none

/-- The conversion loop over the parsed elements, filtering by
`is_valid()`. -/
def actionsLoopPy (raw now : String) : List Json → List PyTradingAction
  | [] => []
  | d :: rest =>
    match convertItemPy raw now d with
    | some a => if a.is_valid then a :: actionsLoopPy raw now rest
                else actionsLoopPy raw now rest
    | none => actionsLoopPy raw now rest

/-- Python `LLMExtractor._parse_response` over runtime candidates. -/
def parse_responsePy (response_text : String) (raw now : String) :
    List PyTradingAction :=
  let t := pyStripChars response_text.data
  let t2 := stripCodeFence t
  match pyJsonLoads ⟨t2⟩ with
  | none => []
  | some data => actionsLoopPy raw now (itemsOfData data)

/-- Python `LLMExtractor.extract` over runtime candidates. -/
def extractPy (llmResponse : Option String) (message : Message) (now : String) :
    List PyTradingAction :=
  match llmResponse with
  | none => []
  | some r => parse_responsePy r message.message now

/-- Projection of a runtime candidate onto the typed data model: numeric
values project exactly; a Boolean or non-integral-quantity value (which
the program would carry through as the corresponding Python number) has no
typed counterpart and projects to `none`.  The projection is exact on
every candidate whose `price`/`quantity` are absent or properly numeric. -/
def toTypedAction (a : PyTradingAction) : TradingAction :=
  { action_type := a.action_type
    symbol := a.symbol
    price := (match a.price with
              | some (Json.num q) => some q
              | _ => none)
    quantity := (match a.quantity with
                 | some (Json.num q) => if q.den = 1 then some q.num else none
                 | _ => none)
    confidence := a.confidence
    message_id := a.message_id
    raw_message := a.raw_message
    extracted_at := a.extracted_at
    action_signal_time := a.action_signal_time }

/-- Python `value <= 0` for a stored JSON value: numbers compare, Booleans
compare as the integers 0/1, and any other type raises `TypeError`
(`Except.error`). -/
def jsonLeZero : Json → Except Unit Bool
  | Json.num q => .ok (decide (q ≤ 0))
  | Json.bool b => .ok (decide (b = false))
  | _ => .error ()

/-- Python `ActionValidator.validate` on a runtime candidate: the
`action.price is not None and action.price <= 0` checks can raise
`TypeError`, which propagates to the caller. -/
def ActionValidator.validatePy (v : ActionValidator) (a : PyTradingAction) :
    Except Unit Bool :=
  if ¬ a.is_valid then .ok false
  else if a.confidence < v.min_confidence then .ok false
  else if ¬ v.is_valid_symbol a.symbol then .ok false
  else
    match a.price with
    | some p =>
      (jsonLeZero p).bind (fun bad =>
        if bad then .ok false
        else
          match a.quantity with
          | some q => (jsonLeZero q).map (fun badq => if badq then false else true)
          | none => .ok true)
    | none =>
      match a.quantity with
      | some q => (jsonLeZero q).map (fun badq => if badq then false else true)
      | none => .ok true

/-- Python `ActionValidator.filter` on runtime candidates: the list
comprehension evaluates `validate` left to right, and the first exception
propagates, discarding everything. -/
def ActionValidator.filterActionsPy (v : ActionValidator) :
    List PyTradingAction → Except Unit (List PyTradingAction)
  | [] => .ok []
  | a :: rest =>
    match v.validatePy a with
    | .error e => .error e
    | .ok b =>
      match v.filterActionsPy rest with
      | .error e => .error e
      | .ok t => .ok (if b then a :: t else t)

/-- Python `MessageProcessor.process_message` over the runtime layer: a
`TypeError` out of `Validator.filter` propagates before `save_message`
runs, so nothing is persisted and nothing is returned.  On the
non-raising path the program proceeds exactly as the typed pipeline does,
with the accepted candidates' stored numeric content given by their typed
projection (exact whenever their `price`/`quantity` are absent or
properly numeric — the only values the amendable paths of the claims
concern; see `toTypedAction`). -/
def process_messagePy (llm : Message → Option String) (validator : ActionValidator)
    (hasCallback : Bool) (db : Database) (message : Message) (now : String) :
    Except Unit (Option ProcResult) :=
  match validator.filterActionsPy (extractPy (llm message) message now) with
  | .error e => .error e
  | .ok validPy =>
    let valid := validPy.map toTypedAction
    let saved := db.save_message message
    .ok (match saveActionsLoop hasCallback now saved.2 saved.1 valid with
         | none => none
         | some (db2, evs) => some ⟨valid, db2, Event.savedMessage saved.2 :: evs⟩)

/-! ### Spec-side predicates and concrete fixtures used by the theorems -/

/-- The acceptance rule exactly as the specification words it: `is_valid()`
holds; confidence ≥ min_confidence; symbol length 1 to 10 and, after
stripping the `'.'` separator, consisting only of alphanumeric characters;
price, when present, strictly positive; quantity, when present, strictly
positive.  (Written from the spec's words, for comparison with
`ActionValidator.validate`, which is written from the source.) -/
def specValidateRule (v : ActionValidator) (a : TradingAction) : Prop :=
  a.is_valid = true
    ∧ v.min_confidence ≤ a.confidence
    ∧ 1 ≤ a.symbol.length ∧ a.symbol.length ≤ 10
    ∧ (∀ c ∈ (pyRemoveDots a.symbol).data, pyIsAlnumChar c = true)
    ∧ (match a.price with | some p => decide (0 < p) | none => true) = true
    ∧ (match a.quantity with | some q => decide (0 < q) | none => true) = true

/-- The amended acceptance rule: as `specValidateRule`, plus the condition
the counterexample forces — the symbol must still be nonempty after the
`'.'` separator is stripped (Python's `"".isalnum()` is `False`). -/
def specValidateRuleAmended (v : ActionValidator) (a : TradingAction) : Prop :=
  specValidateRule v a ∧ pyRemoveDots a.symbol ≠ ""

/-- A candidate whose symbol is the bare separator `"."`: it satisfies
every condition of the spec's wording, yet the code rejects it. -/
def dotSymbolAction : TradingAction :=
  { action_type := .buy, symbol := ".", confidence := mkRat 9 10 }

/-- The expected tail of the `process_message` event trace: for each
accepted action, in order, a save linked to the message id (rows getting
consecutive ids) followed by the callback when one is registered. -/
def expectedActionEvents (hasCallback : Bool) (mid : Option Nat) :
    Nat → List TradingAction → List Event
  | _, [] => []
  | nextId, a :: rest =>
    Event.savedAction a mid nextId ::
      ((if hasCallback then [Event.callbackFired a] else []) ++
        expectedActionEvents hasCallback mid (nextId + 1) rest)

/-- The spec's executable BUY example. -/
def exBuyAapl : TradingAction :=
  { action_type := .buy, symbol := "AAPL", confidence := mkRat 95 100 }

/-- The spec's invalid UNKNOWN example. -/
def exUnknownEmpty : TradingAction :=
  { action_type := .unknown, symbol := "" }

/-- A stored BUY action with confidence 0.9 (statistics example). -/
def statBuyAction : TradingAction :=
  { action_type := .buy, symbol := "AAPL", confidence := mkRat 9 10 }

/-- A stored SELL action with confidence 0.5 (statistics example). -/
def statSellAction : TradingAction :=
  { action_type := .sell, symbol := "TSLA", confidence := mkRat 1 2 }

/-- A fully populated upper-case-symbol action (round-trip witness). -/
def roundtripAction : TradingAction :=
  { action_type := .sell, symbol := "QQQ", price := some (mkRat 4921 10)
    quantity := some 100, confidence := mkRat 1 2, message_id := some "mid7"
    raw_message := some "sell qqq", extracted_at := some "2024-10-05T12:00:00"
    action_signal_time := some "10/5/2024 12:25 PM" }

/-- A stubbed provider returning one BUY/AAPL/0.95 candidate (used to
instantiate the orchestrator theorems at a concrete run). -/
def witLlm : Message → Option String :=
  fun _ => some "[\x7b\"action_type\":\"buy\",\"symbol\":\"AAPL\",\"confidence\":0.95\x7d]"

/-- A concrete input message for the orchestrator witnesses. -/
def witMsg : Message := { sender := "s", send_time := "t", message := "m" }

/-- The action extracted from `witLlm`'s response. -/
def witAction : TradingAction :=
  { action_type := .buy, symbol := "AAPL", confidence := mkRat 95 100
    raw_message := some "m", extracted_at := some "now" }

/-- The full result of processing `witMsg` against `witLlm` on an empty
store with a callback registered. -/
def witResult : ProcResult :=
  { actions := [witAction]
    db := { messages := [⟨1, "s", "t", "m", none, none, none⟩]
            actions := [⟨1, some 1, "buy", "AAPL", none, none, mkRat 95 100,
                         some "m", "now", none⟩]
            nextMessageId := 2, nextActionId := 2 }
    events := [Event.savedMessage (some 1),
               Event.savedAction witAction (some 1) 1,
               Event.callbackFired witAction] }

/-- A model response carrying a string-valued price, stored verbatim by
the extractor (the dataclass is runtime-untyped) and handed to the
validator's unguarded comparison. -/
def badPriceResponse : String :=
  "[\x7b\"action_type\":\"buy\",\"symbol\":\"AAPL\",\"price\":\"150\",\"confidence\":0.95\x7d]"

/-- The runtime candidate extracted from `badPriceResponse`: it passes
`is_valid()` (which never reads the price) and so reaches the
validator. -/
def badPriceAction : PyTradingAction :=
  { action_type := .buy, symbol := "AAPL", price := some (Json.str "150")
    quantity := none, confidence := mkRat 95 100
    raw_message := some "m", extracted_at := some "now" }

/-- The fenced model output of the spec's response-parsing example. -/
def fencedExample : String :=
  "```json\n[\x7b\"action_type\":\"sell\",\"symbol\":\"qqq\",\"price\":492.0,\"quantity\":null,\"confidence\":0.9\x7d]\n```"

/-- The single candidate the fenced example must produce. -/
def fencedExpected (raw now : String) : TradingAction :=
  { action_type := .sell, symbol := "QQQ", price := some (mkRat 492 1)
    quantity := none, confidence := mkRat 9 10
    raw_message := some raw, extracted_at := some now }

/-! ### Helper lemmas -/

/-- A string differs from `""` exactly when its character list is nonempty. -/
theorem string_ne_empty_iff (s : String) : s ≠ "" ↔ s.data ≠ [] := by
  cases s with
  | mk l =>
    constructor
    · intro h hl
      exact h (by simp only at hl; rw [hl])
    · intro h he
      exact h (by rw [he])

/-- A string of length below one is empty. -/
theorem string_eq_empty_of_length_lt_one (s : String) (h : s.length < 1) : s = "" := by
  cases s with
  | mk l =>
    cases l with
    | nil => rfl
    | cons c cs => simp [String.length] at h

/-- A string of length at least one is nonempty. -/
theorem ne_empty_of_one_le_length (s : String) (h : 1 ≤ s.length) : s ≠ "" := by
  intro he
  rw [he] at h
  simp [String.length] at h

/-- A nonempty string has length at least one. -/
theorem one_le_length_of_ne_empty (s : String) (h : s ≠ "") : 1 ≤ s.length := by
  cases s with
  | mk l =>
    cases l with
    | nil => exact absurd rfl h
    | cons c cs => simp [String.length]

/-- Unfolding of `is_valid` into its five conditions. -/
theorem is_valid_iff (a : TradingAction) :
    a.is_valid = true ↔
      (a.action_type ≠ ActionType.unknown ∧ a.symbol ≠ "" ∧ 1 ≤ a.symbol.length ∧
        (0 : ℚ) ≤ a.confidence ∧ a.confidence ≤ 1) := by
  simp [TradingAction.is_valid, Bool.and_eq_true, decide_eq_true_iff, and_assoc]

/-- Unfolding of the symbol-format check: nonempty, at most ten characters,
and nonempty-all-alphanumeric once the dots are removed. -/
theorem is_valid_symbol_iff (v : ActionValidator) (s : String) :
    v.is_valid_symbol s = true ↔
      s ≠ "" ∧ s.length ≤ 10 ∧ pyRemoveDots s ≠ "" ∧
        ∀ c ∈ (pyRemoveDots s).data, pyIsAlnumChar c = true := by
  unfold ActionValidator.is_valid_symbol
  split_ifs with h1 h2 h3
  · simp only [false_iff]
    rintro ⟨hne, -, -, -⟩
    rcases h1 with h1 | h1
    · exact hne h1
    · exact hne (string_eq_empty_of_length_lt_one s h1)
  · simp only [false_iff]
    rintro ⟨-, hle, -, -⟩
    omega
  · simp only [true_iff]
    push_neg at h1
    unfold pyIsAlnum at h3
    rw [Bool.and_eq_true, List.all_eq_true] at h3
    refine ⟨h1.1, by omega, ?_, fun c hc => h3.2 c hc⟩
    rw [string_ne_empty_iff]
    simpa using h3.1
  · simp only [false_iff]
    rintro ⟨-, -, hne, hall⟩
    refine h3 ?_
    unfold pyIsAlnum
    rw [Bool.and_eq_true, List.all_eq_true]
    exact ⟨by simpa [string_ne_empty_iff] using hne, fun c hc => hall c hc⟩

/-- An accepted action passed the basic validity check. -/
theorem validate_imp_is_valid (v : ActionValidator) (a : TradingAction)
    (h : v.validate a = true) : a.is_valid = true := by
  unfold ActionValidator.validate at h
  split_ifs at h with h1
  exact h1

/-- A basically valid action has confidence within the unit interval. -/
theorem is_valid_conf_bounds (a : TradingAction) (h : a.is_valid = true) :
    (0 : ℚ) ≤ a.confidence ∧ a.confidence ≤ 1 := by
  rw [is_valid_iff] at h
  exact ⟨h.2.2.2.1, h.2.2.2.2⟩

/-- The save loop of the orchestrator succeeds on actions whose confidence
satisfies the storage `CHECK`, producing exactly the expected event tail
and leaving the message table untouched. -/
theorem saveActionsLoop_sound (hasCb : Bool) (now : String) (mid : Option Nat) :
    ∀ (as : List TradingAction) (db : Database),
      (∀ a ∈ as, (0 : ℚ) ≤ a.confidence ∧ a.confidence ≤ 1) →
      ∃ db2, saveActionsLoop hasCb now mid db as
          = some (db2, expectedActionEvents hasCb mid db.nextActionId as)
        ∧ db2.messages = db.messages := by
  intro as
  induction as with
  | nil => exact fun db _ => ⟨db, rfl, rfl⟩
  | cons a rest ih =>
    intro db h
    have hb := h a (List.mem_cons_self a rest)
    have hsave : db.save_trading_action a mid now
        = some ({ db with
                   actions := db.actions ++
                     [⟨db.nextActionId, mid, a.action_type.value, a.symbol,
                       a.price, a.quantity, a.confidence, a.raw_message,
                       (match a.extracted_at with
                        | some s => if s = "" then now else s
                        | none => now), a.action_signal_time⟩]
                   nextActionId := db.nextActionId + 1 }, db.nextActionId) := by
      unfold Database.save_trading_action
      rw [if_pos hb]
    obtain ⟨db2, hloop, hmsg⟩ :=
      ih { db with
            actions := db.actions ++
              [⟨db.nextActionId, mid, a.action_type.value, a.symbol,
                a.price, a.quantity, a.confidence, a.raw_message,
                (match a.extracted_at with
                 | some s => if s = "" then now else s
                 | none => now), a.action_signal_time⟩]
            nextActionId := db.nextActionId + 1 }
        (fun b hb2 => h b (List.mem_cons_of_mem a hb2))
    refine ⟨db2, ?_, hmsg⟩
    simp only [saveActionsLoop]
    rw [hsave]
    simp only [expectedActionEvents]
    rw [hloop]

/-- Closed form of one `process_message` call: it never hits the
`IntegrityError` branch, returns the validator's output, and records the
expected trace. -/
theorem process_message_characterization (llm : Message → Option String)
    (v : ActionValidator) (hasCb : Bool) (db : Database) (msg : Message) (now : String) :
    ∃ db2, process_message llm v hasCb db msg now
        = some ⟨v.filterActions (extract (llm msg) msg now), db2,
                Event.savedMessage (db.save_message msg).2 ::
                  expectedActionEvents hasCb (db.save_message msg).2
                    (db.save_message msg).1.nextActionId
                    (v.filterActions (extract (llm msg) msg now))⟩
      ∧ db2.messages = (db.save_message msg).1.messages := by
  have hbounds : ∀ a ∈ v.filterActions (extract (llm msg) msg now),
      (0 : ℚ) ≤ a.confidence ∧ a.confidence ≤ 1 := by
    intro a ha
    have hv : v.validate a = true := (List.mem_filter.mp ha).2
    exact is_valid_conf_bounds a (validate_imp_is_valid v a hv)
  obtain ⟨db2, hloop, hmsg⟩ :=
    saveActionsLoop_sound hasCb now (db.save_message msg).2
      (v.filterActions (extract (llm msg) msg now)) (db.save_message msg).1 hbounds
  refine ⟨db2, ?_, hmsg⟩
  unfold process_message
  dsimp only
  rw [hloop]

/-- Every action recorded in the expected event tail is one of the
accepted actions. -/
theorem mem_expectedActionEvents (hasCb : Bool) (mid : Option Nat) :
    ∀ (as : List TradingAction) (n : Nat) (a : TradingAction) (m : Option Nat) (k : Nat),
      Event.savedAction a m k ∈ expectedActionEvents hasCb mid n as → a ∈ as := by
  intro as
  induction as with
  | nil => intro n a m k h; simp [expectedActionEvents] at h
  | cons b rest ih =>
    intro n a m k h
    simp only [expectedActionEvents, List.mem_cons, List.mem_append] at h
    rcases h with h | h | h
    · rw [Event.savedAction.injEq] at h
      exact h.1 ▸ List.mem_cons_self b rest
    · cases hasCb <;> simp_all
    · exact List.mem_cons_of_mem b (ih _ a m k h)

/-- The typed projection preserves `is_valid` (it reads only fields the
projection copies verbatim). -/
theorem pyIsValid_toTyped (a : PyTradingAction) :
    (toTypedAction a).is_valid = a.is_valid := rfl

/-- The per-item conversion of the runtime layer projects onto the typed
per-item conversion: `convertItem` is exactly `convertItemPy` followed by
`toTypedAction`. -/
theorem convertItemPy_toTyped (raw now : String) (item : Json) :
    (convertItemPy raw now item).map toTypedAction = convertItem raw now item := by
  cases item with
  | obj members =>
    simp only [convertItemPy, convertItem]
    rcases h1 : asStrOr (jsonGet members "action_type") "unknown" with - | ats
    · rfl
    · rcases h2 : asStrOr (jsonGet members "symbol") "" with - | symRaw
      · rfl
      · by_cases hsym : pyStrip (pyUpper symRaw) = ""
        · simp [hsym]
        · simp only [hsym, if_false, ite_false]
          rcases h3 : jsonGet members "confidence" with - | cv
          · rcases h4 : jsonGet members "price" with - | p
            · rcases h5 : jsonGet members "quantity" with - | q
              · rfl
              · cases q <;> rfl
            · rcases h5 : jsonGet members "quantity" with - | q
              · cases p <;> rfl
              · cases p <;> cases q <;> rfl
          · dsimp only
            rcases h3b : pyFloatOfJson cv with - | conf
            · rfl
            · rcases h4 : jsonGet members "price" with - | p
              · rcases h5 : jsonGet members "quantity" with - | q
                · rfl
                · cases q <;> rfl
              · rcases h5 : jsonGet members "quantity" with - | q
                · cases p <;> rfl
                · cases p <;> cases q <;> rfl
  | null => rfl
  | bool b => rfl
  | num q => rfl
  | str s => rfl
  | arr xs => rfl

/-- The conversion loop of the runtime layer projects onto the typed
loop. -/
theorem actionsLoopPy_toTyped (raw now : String) :
    ∀ items : List Json,
      (actionsLoopPy raw now items).map toTypedAction = actionsLoop raw now items := by
  intro items
  induction items with
  | nil => rfl
  | cons d rest ih =>
    simp only [actionsLoopPy, actionsLoop]
    rw [← convertItemPy_toTyped raw now d]
    rcases hcv : convertItemPy raw now d with - | a
    · simpa using ih
    · simp only [Option.map_some', pyIsValid_toTyped]
      by_cases hv : a.is_valid = true
      · simp [hv, ih]
      · simp [hv, ih]

/-- The runtime response parser projects onto the typed one. -/
theorem parse_responsePy_toTyped (r raw now : String) :
    (parse_responsePy r raw now).map toTypedAction = parse_response r raw now := by
  unfold parse_responsePy parse_response
  dsimp only
  rcases h : pyJsonLoads ⟨stripCodeFence (pyStripChars r.data)⟩ with - | data
  · rfl
  · exact actionsLoopPy_toTyped raw now (itemsOfData data)

/-- The runtime extraction projects onto the typed one: the approved typed
extraction results are exactly the typed projections of what the program
really builds. -/
theorem extractPy_toTyped (llmResponse : Option String) (msg : Message) (now : String) :
    (extractPy llmResponse msg now).map toTypedAction = extract llmResponse msg now := by
  cases llmResponse with
  | none => rfl
  | some r => exact parse_responsePy_toTyped r msg.message now

/-- A fence prefix exposes its first three characters. -/
theorem startsWithFence_shape (cs : List Char) (h : startsWithFence cs = true) :
    ∃ r, cs = '\x60' :: '\x60' :: '\x60' :: r := by
  rcases cs with - | ⟨c1, - | ⟨c2, - | ⟨c3, r⟩⟩⟩ <;> simp [startsWithFence] at h
  obtain ⟨⟨h1, h2⟩, h3⟩ := h
  exact ⟨r, by rw [h1, h2, h3]⟩

/-- The JSON value parser rejects any input starting with a backtick. -/
theorem parseJsonCore_backtick (fuel : Nat) (r : List Char) :
    parseJsonCore fuel PMode.valMode ('\x60' :: r) = none := by
  cases fuel with
  | zero => rfl
  | succ n =>
    have hws : dropJsonWs ('\x60' :: r) = '\x60' :: r := by
      simp [dropJsonWs, List.dropWhile, jsonWsChar]
    simp [parseJsonCore, hws, parseJsonNumber, Char.isDigit]

/-- Python `json.loads` fails on any document starting with a backtick. -/
theorem pyJsonLoads_backtick (r : List Char) :
    pyJsonLoads ⟨'\x60' :: r⟩ = none := by
  unfold pyJsonLoads
  rw [show parseJsonValue (4 * (String.mk ('\x60' :: r)).data.length + 16)
        ('\x60' :: r) = none from parseJsonCore_backtick _ r]

/-- Removing the first and last element of a list with at most two elements
leaves nothing. -/
theorem drop_one_dropLast_nil {α : Type} (l : List α) (h : ¬ l.length > 2) :
    (l.drop 1).dropLast = [] := by
  rcases l with - | ⟨a, - | ⟨b, - | ⟨c, rest⟩⟩⟩
  · rfl
  · rfl
  · rfl
  · simp at h

/-! ### Claim theorems -/

/-- Claim C1: response-parsing shape policy of the Extraction Client.
Given the model output consisting of the example JSON array wrapped in a
markdown code fence, parsing yields exactly one candidate with symbol
"QQQ", kind SELL, price 492.0, quantity None, confidence 0.9 (whatever the
source message text and extraction timestamp are); and in general, for
every response text that (after the initial whitespace strip) begins with
a fence marker, the result is that of JSON-parsing the text with its first
and last lines stripped. -/
theorem extractor_fence_stripping :
    (∀ raw now : String, parse_response fencedExample raw now = [fencedExpected raw now])
      ∧ (∀ (t raw now : String), startsWithFence (pyStripChars t.data) = true →
          parse_response t raw now =
            (match pyJsonLoads
                ⟨joinNl (((splitOnNl (pyStripChars t.data)).drop 1).dropLast)⟩ with
             | none => []
             | some data => actionsLoop raw now (itemsOfData data))) := by
  constructor
  · intro raw now
    rfl
  · intro t raw now h
    show (match pyJsonLoads ⟨stripCodeFence (pyStripChars t.data)⟩ with
          | none => ([] : List TradingAction)
          | some data => actionsLoop raw now (itemsOfData data)) = _
    unfold stripCodeFence
    rw [if_pos h]
    by_cases hlen : (splitOnNl (pyStripChars t.data)).length > 2
    · rw [if_pos hlen]
    · rw [if_neg hlen]
      obtain ⟨r, hr⟩ := startsWithFence_shape _ h
      rw [drop_one_dropLast_nil _ hlen, hr, pyJsonLoads_backtick]
      rw [show pyJsonLoads ⟨joinNl []⟩ = none from rfl]

/-- Witness for C1: the general fence-stripping equation instantiated at
the concrete fenced example. -/
theorem extractor_fence_stripping_witness :
    startsWithFence (pyStripChars fencedExample.data) = true
      ∧ parse_response fencedExample "m" "t0" =
          (match pyJsonLoads
              ⟨joinNl (((splitOnNl (pyStripChars fencedExample.data)).drop 1).dropLast)⟩ with
           | none => []
           | some data => actionsLoop "m" "t0" (itemsOfData data)) :=
  ⟨by decide, extractor_fence_stripping.2 fencedExample "m" "t0" (by decide)⟩

/-- Claim C2: the Extraction Client never raises.  The model response
"not json at all" yields zero candidates; a provider call that raises is
absorbed into an empty list; and a malformed element of an otherwise
well-formed response is skipped while the remaining elements are still
converted.  (Totality itself is structural: every function of the
embedded extraction path is a total Lean function.) -/
theorem extractor_error_recovery :
    (∀ raw now : String, parse_response "not json at all" raw now = [])
      ∧ (∀ (msg : Message) (now : String), extract none msg now = [])
      ∧ (∀ (raw now : String) (xs ys : List Json) (bad : Json),
          convertItem raw now bad = none →
          actionsLoop raw now (xs ++ bad :: ys) = actionsLoop raw now (xs ++ ys)) := by
  refine ⟨?_, fun msg now => rfl, ?_⟩
  · intro raw now
    show (match pyJsonLoads ⟨stripCodeFence (pyStripChars ("not json at all").data)⟩ with
          | none => ([] : List TradingAction)
          | some data => actionsLoop raw now (itemsOfData data)) = []
    rw [show pyJsonLoads ⟨stripCodeFence (pyStripChars ("not json at all").data)⟩
          = none from rfl]
  · intro raw now xs ys bad hbad
    induction xs with
    | nil => simp only [List.nil_append, actionsLoop, hbad]
    | cons x xs ih =>
      simp only [List.cons_append, actionsLoop, List.append_eq]
      rw [ih]

/-- Witness for C2: the skip-one-element equation discharged at a `null`
element (on which the per-item conversion raises in Python). -/
theorem extractor_error_recovery_witness :
    parse_response "not json at all" "m" "t0" = []
      ∧ actionsLoop "m" "t0" ([] ++ Json.null :: []) = actionsLoop "m" "t0" ([] ++ []) :=
  ⟨extractor_error_recovery.1 "m" "t0",
   extractor_error_recovery.2.2 "m" "t0" [] [] Json.null rfl⟩

/-- Claim C3 (code-bug evidence): the claim says `process_message` always
persists the message and returns the accepted list, but the program
violates it.  For a model response carrying a string-valued price, the
extractor returns the candidate with the value stored verbatim (it passes
`is_valid()`, which never reads the price), `Validator.filter` then
raises `TypeError` evaluating `action.price <= 0`, and the exception
propagates out of `process_message` before `save_message` runs: nothing
is persisted and nothing is returned. -/
theorem process_message_string_price_raises :
    parse_responsePy badPriceResponse "m" "now" = [badPriceAction]
      ∧ badPriceAction.is_valid = true
      ∧ ActionValidator.filterActionsPy { min_confidence := mkRat 7 10 }
          (parse_responsePy badPriceResponse "m" "now") = .error ()
      ∧ process_messagePy (fun _ => some badPriceResponse) { min_confidence := mkRat 7 10 }
          true {} witMsg "now" = .error () :=
  ⟨rfl, rfl, rfl, rfl⟩

/-- Counterexample for C4: the candidate with symbol "." (the bare
separator) is rejected by the code's `validate`, although it satisfies
every condition of the claim as worded — it is basically valid, meets the
threshold, has length 1, and after stripping the '.' separator the
remaining (empty) string vacuously consists only of alphanumeric
characters, with no price or quantity present. -/
theorem validate_symbol_claim_counterexample :
    ActionValidator.validate { min_confidence := mkRat 7 10 } dotSymbolAction = false
      ∧ specValidateRule { min_confidence := mkRat 7 10 } dotSymbolAction :=
  ⟨by decide, by unfold specValidateRule; decide⟩

/-- Claim C4 (amended): `validate` returns true exactly when `is_valid()`
holds, confidence is at least the configured minimum, the symbol has
length 1 to 10 and after stripping the '.' separator is nonempty and
consists only of alphanumeric characters, and price and quantity, when
present, are strictly positive.  (The amendment adds the nonemptiness of
the stripped symbol, which Python's `isalnum` imposes.) -/
theorem validate_iff_spec_amended (v : ActionValidator) (a : TradingAction) :
    v.validate a = true ↔ specValidateRuleAmended v a := by
  unfold ActionValidator.validate specValidateRuleAmended specValidateRule
  split_ifs with h1 h2 h3 h4 h5
  · simp only [false_iff]
    rintro ⟨⟨-, hconf, -, -, -, -, -⟩, -⟩
    exact absurd hconf (not_le.mpr h2)
  · simp only [false_iff]
    rintro ⟨⟨-, -, -, -, -, hprice, -⟩, -⟩
    rcases hp : a.price with - | p
    · rw [hp] at h4
      simp at h4
    · rw [hp] at h4 hprice
      rw [decide_eq_true_iff] at h4 hprice
      exact absurd hprice (not_lt.mpr h4)
  · simp only [false_iff]
    rintro ⟨⟨-, -, -, -, -, -, hqty⟩, -⟩
    rcases hq : a.quantity with - | q
    · rw [hq] at h5
      simp at h5
    · rw [hq] at h5 hqty
      rw [decide_eq_true_iff] at h5 hqty
      exact absurd hqty (not_lt.mpr h5)
  · simp only [true_iff]
    obtain ⟨hne, hlen10, hstr, hall⟩ := (is_valid_symbol_iff v a.symbol).mp h3
    refine ⟨⟨h1, not_lt.mp h2, one_le_length_of_ne_empty _ hne, hlen10, hall, ?_, ?_⟩, hstr⟩
    · rcases hp : a.price with - | p
      · rfl
      · rw [hp] at h4
        rw [decide_eq_true_iff]
        simp only [decide_eq_true_iff] at h4
        exact lt_of_not_le h4
    · rcases hq : a.quantity with - | q
      · rfl
      · rw [hq] at h5
        rw [decide_eq_true_iff]
        simp only [decide_eq_true_iff] at h5
        exact lt_of_not_le h5
  · simp only [false_iff]
    rintro ⟨⟨-, -, hlen1, hlen10, hall, -, -⟩, hstr⟩
    exact h3 ((is_valid_symbol_iff v a.symbol).mpr
      ⟨ne_empty_of_one_le_length _ hlen1, hlen10, hstr, hall⟩)
  · simp only [false_iff]
    rintro ⟨⟨hv, -, -, -, -, -, -⟩, -⟩
    exact h1 hv

/-- Witness for C4: the amended rule applied to the executable BUY/AAPL
example accepts it. -/
theorem validate_iff_spec_amended_witness :
    ActionValidator.validate { min_confidence := mkRat 7 10 } exBuyAapl = true :=
  (validate_iff_spec_amended { min_confidence := mkRat 7 10 } exBuyAapl).mpr
    (by unfold specValidateRuleAmended specValidateRule; decide)

/-- Claim C5: `filter` is the order-preserving sublist of elements
satisfying `validate` (it is literally the list `filter` by `validate`,
hence a sublist of its input), and it is idempotent.  It is a total
function of the embedding, so no input element can make it raise. -/
theorem validator_filter_spec :
    ∀ (v : ActionValidator) (xs : List TradingAction),
      (v.filterActions xs).Sublist xs
      ∧ v.filterActions xs = xs.filter (fun a => v.validate a)
      ∧ v.filterActions (v.filterActions xs) = v.filterActions xs := by
  intro v xs
  refine ⟨List.filter_sublist xs, rfl, ?_⟩
  simp [ActionValidator.filterActions, List.filter_filter]

/-- Witness for C5: the sublist property at a concrete two-element list. -/
theorem validator_filter_spec_witness :
    (ActionValidator.filterActions { min_confidence := mkRat 7 10 }
        [exBuyAapl, exUnknownEmpty]).Sublist [exBuyAapl, exUnknownEmpty] :=
  (validator_filter_spec { min_confidence := mkRat 7 10 } [exBuyAapl, exUnknownEmpty]).1

/-- Claim C6: `is_executable(threshold)` holds exactly when `is_valid()`
holds, the confidence meets the threshold, and the kind is BUY or SELL;
the BUY/AAPL/0.95 example is valid and executable at threshold 0.7, while
the UNKNOWN/empty-symbol example is neither. -/
theorem is_executable_spec :
    (∀ (a : TradingAction) (threshold : ℚ),
        a.is_executable threshold = true ↔
          (a.is_valid = true ∧ threshold ≤ a.confidence ∧
            (a.action_type = ActionType.buy ∨ a.action_type = ActionType.sell)))
    ∧ exBuyAapl.is_valid = true ∧ exBuyAapl.is_executable (mkRat 7 10) = true
    ∧ exUnknownEmpty.is_valid = false
    ∧ exUnknownEmpty.is_executable (mkRat 7 10) = false := by
  refine ⟨fun a t => ?_, by decide, by decide, by decide, by decide⟩
  simp [TradingAction.is_executable, Bool.and_eq_true, decide_eq_true_iff, and_assoc]

/-- Witness for C6: the executability equivalence applied at the concrete
BUY example and threshold 0.7. -/
theorem is_executable_spec_witness :
    exBuyAapl.is_executable (mkRat 7 10) = true :=
  (is_executable_spec.1 exBuyAapl (mkRat 7 10)).mpr (by decide)

/-- Claim C7: out-of-range confidence never passes.  Any action whose
confidence lies outside [0, 1] fails `is_valid()` and is rejected by every
validator; consequently every action-save event produced by a completed
`process_message` run carries a confidence within [0, 1]. -/
theorem confidence_invariant :
    (∀ a : TradingAction, (a.confidence < 0 ∨ 1 < a.confidence) →
        a.is_valid = false ∧ ∀ v : ActionValidator, v.validate a = false)
      ∧ (∀ (llm : Message → Option String) (v : ActionValidator) (hasCb : Bool)
            (db : Database) (msg : Message) (now : String) (r : ProcResult),
          process_message llm v hasCb db msg now = some r →
          ∀ (a : TradingAction) (m : Option Nat) (k : Nat),
            Event.savedAction a m k ∈ r.events →
            (0 : ℚ) ≤ a.confidence ∧ a.confidence ≤ 1) := by
  constructor
  · intro a h
    have hval : a.is_valid = false := by
      cases hv : a.is_valid
      · rfl
      · have hb := is_valid_conf_bounds a hv
        rcases h with h | h
        · exact absurd hb.1 (not_le.mpr h)
        · exact absurd hb.2 (not_le.mpr h)
    refine ⟨hval, fun v => ?_⟩
    cases hw : v.validate a
    · rfl
    · have := validate_imp_is_valid v a hw
      rw [hval] at this
      exact absurd this (by simp)
  · intro llm v hasCb db msg now r hr a m k hmem
    obtain ⟨db2, heq, -⟩ := process_message_characterization llm v hasCb db msg now
    rw [heq, Option.some.injEq] at hr
    subst hr
    simp only [List.mem_cons] at hmem
    rcases hmem with hmem | hmem
    · exact absurd hmem (by simp)
    · have ha := mem_expectedActionEvents hasCb (db.save_message msg).2 _ _ a m k hmem
      have hv : v.validate a = true := (List.mem_filter.mp ha).2
      exact is_valid_conf_bounds a (validate_imp_is_valid v a hv)

/-- Witness for C7: both halves discharged at concrete inputs — an action
with confidence 1.5 is invalid, and the action saved in the concrete
stubbed run has confidence within [0, 1]. -/
theorem confidence_invariant_witness :
    (TradingAction.is_valid { action_type := .buy, symbol := "A", confidence := mkRat 3 2 } = false)
      ∧ ((0 : ℚ) ≤ witAction.confidence ∧ witAction.confidence ≤ 1) :=
  ⟨(confidence_invariant.1 { action_type := .buy, symbol := "A", confidence := mkRat 3 2 }
      (Or.inr (by decide))).1,
   confidence_invariant.2 witLlm { min_confidence := mkRat 7 10 } true {} witMsg "now"
     witResult (by decide) witAction (some 1) 1 (by decide)⟩

/-- Claim C8: on a store holding exactly one BUY action with confidence
0.9 and one SELL action with confidence 0.5, `get_action_statistics`
returns two total actions, the by-type mapping buy to 1 and sell to 1, and
average confidence 0.7; on an empty store the average defaults to 0.0. -/
theorem statistics_spec :
    ((({} : Database).save_trading_action statBuyAction none "t1").bind
        (fun p => (p.1.save_trading_action statSellAction none "t2").map
          (fun q => q.1.get_action_statistics)))
      = some { total_actions := 2, by_type := [("buy", 1), ("sell", 1)],
               average_confidence := mkRat 7 10,
               top_symbols := [("AAPL", 1), ("TSLA", 1)] }
    ∧ ({} : Database).get_action_statistics.average_confidence = 0 :=
  ⟨by decide, by decide⟩

/-- Claim C9: serialisation round-trip.  For every action whose symbol is
already upper-case, `from_dict (to_dict a)` returns `a`, preserving every
field. -/
theorem to_dict_from_dict_roundtrip :
    ∀ a : TradingAction, a.symbol = pyUpper a.symbol →
      TradingAction.from_dict a.to_dict = a := by
  intro a h
  obtain ⟨atype, symbol, price, quantity, conf, mid, raw, ext, sig⟩ := a
  dsimp only at h
  simp only [TradingAction.to_dict, TradingAction.from_dict, Option.getD_some,
    TradingAction.mk.injEq]
  refine ⟨?_, ?_, trivial, trivial, trivial, trivial, trivial, trivial, trivial⟩
  · cases atype <;> decide
  · rw [← h, ← h]

/-- Witness for C9: the round-trip at a fully populated upper-case-symbol
action. -/
theorem to_dict_from_dict_roundtrip_witness :
    roundtripAction.symbol = pyUpper roundtripAction.symbol
      ∧ TradingAction.from_dict roundtripAction.to_dict = roundtripAction :=
  ⟨by decide, to_dict_from_dict_roundtrip roundtripAction (by decide)⟩

/-- Claim C10: `parse_time` is total in the model (no exception escapes:
each `ValueError` is caught and the next format tried) and succeeds
exactly when one of the four supported formats matches; the concrete
examples cover all four formats, a calendar-invalid date (February 30),
and a non-date string. -/
theorem parse_time_spec :
    (∀ m : Message, (m.parse_time).isSome =
        ((strptimeFmt1 m.send_time.data).isSome || (strptimeFmt2 m.send_time.data).isSome
          || (strptimeFmt3 m.send_time.data).isSome || (strptimeFmt4 m.send_time.data).isSome))
      ∧ Message.parse_time ⟨"s", "10/5/2024 12:25 PM", "m", none, none, none⟩
          = some ⟨2024, 10, 5, 12, 25, 0⟩
      ∧ Message.parse_time ⟨"s", "10/5/2024 12:25:30 PM", "m", none, none, none⟩
          = some ⟨2024, 10, 5, 12, 25, 30⟩
      ∧ Message.parse_time ⟨"s", "2024-10-05 23:59:07", "m", none, none, none⟩
          = some ⟨2024, 10, 5, 23, 59, 7⟩
      ∧ Message.parse_time ⟨"s", "2024-10-05 23:59", "m", none, none, none⟩
          = some ⟨2024, 10, 5, 23, 59, 0⟩
      ∧ Message.parse_time ⟨"s", "2/30/2024 12:25 PM", "m", none, none, none⟩ = none
      ∧ Message.parse_time ⟨"s", "not a date", "m", none, none, none⟩ = none := by
  refine ⟨fun m => ?_, by decide, by decide, by decide, by decide, by decide, by decide⟩
  unfold Message.parse_time
  cases strptimeFmt1 m.send_time.data <;> cases strptimeFmt2 m.send_time.data <;>
    cases strptimeFmt3 m.send_time.data <;> cases strptimeFmt4 m.send_time.data <;> rfl

/-- Witness for C10: the format-match equivalence at a concrete
timestamp. -/
theorem parse_time_spec_witness :
    (Message.parse_time ⟨"s", "10/5/2024 12:25 PM", "m", none, none, none⟩).isSome =
      ((strptimeFmt1 ("10/5/2024 12:25 PM").data).isSome
        || (strptimeFmt2 ("10/5/2024 12:25 PM").data).isSome
        || (strptimeFmt3 ("10/5/2024 12:25 PM").data).isSome
        || (strptimeFmt4 ("10/5/2024 12:25 PM").data).isSome) :=
  parse_time_spec.1 ⟨"s", "10/5/2024 12:25 PM", "m", none, none, none⟩

end TradeCrawler
